import Mathlib

/-!
Shallow embedding of the domain core of the Kalyug billing system
(`sales_management_system`): the `SaleItem` and `Table` models
(`src/models/table.py`), the persistence layer (`src/utils/data_manager.py`),
the `SalesController` (`src/controllers/sales_controller.py`), and the daily
sales ledger with its removal audit log
(`MainWindow.update_daily_sales`, `MainWindow.remove_sale_order`,
`MainWindow.log_order_removal` in `src/views/main_window.py`).

Python floats are modelled as exact rationals (`ℚ`), Python ints as `ℤ`,
timestamps as abstract `Nat` clock values passed in by the caller in place of
`datetime.now()`, and Python dicts as insertion-ordered association lists.
Exceptions are modelled with `Except SmError`.
-/

/-- Error taxonomy: each Python exception raised by the embedded code is mapped
to one of these constructors (`ValueError` on state checks becomes
`invalidState`, `ValueError` on input validation becomes `validationError`,
`IndexError` becomes `indexOutOfRange`, the "Order not found!" path becomes
`notFound`). -/
inductive SmError where
  | invalidState
  | validationError
  | indexOutOfRange
  | notFound
deriving Repr, DecidableEq

/-- Assoc-list model of a Python dict: the value stored at a key. -/
def dictGet {κ β : Type} [DecidableEq κ] : List (κ × β) → κ → Option β
  | [], _ => none
  | (k', v) :: rest, k => if k' = k then some v else dictGet rest k

/-- Python `d[k] = v`: update the binding in place if the key is present,
otherwise append a new binding at the end (dicts preserve insertion order). -/
def dictSet {κ β : Type} [DecidableEq κ] : List (κ × β) → κ → β → List (κ × β)
  | [], k, v => [(k, v)]
  | (k', v') :: rest, k, v =>
    if k' = k then (k, v) :: rest else (k', v') :: dictSet rest k v

/-- Python `del d[k]`. -/
def dictDel {κ β : Type} [DecidableEq κ] : List (κ × β) → κ → List (κ × β)
  | [], _ => []
  | (k', v') :: rest, k =>
    if k' = k then dictDel rest k else (k', v') :: dictDel rest k

/-- Python `l[n] = f(l[n])` on a list: modify the element at position `n`. -/
def modifyAt {α : Type} : List α → Nat → (α → α) → List α
  | [], _, _ => []
  | a :: as, 0, f => f a :: as
  | a :: as, n + 1, f => a :: modifyAt as n f

/-- Python `l.pop(n)` (the resulting list): remove the element at position `n`. -/
def removeAt {α : Type} : List α → Nat → List α
  | [], _ => []
  | _ :: as, 0 => as
  | a :: as, n + 1 => a :: removeAt as n

/-- Model of `SaleItem` (src/models/table.py): a line item of a table. -/
structure SaleItem where
  name : String
  price : ℚ
  quantity : ℤ
deriving Repr, DecidableEq

/-- Python `str.strip()`: drop whitespace from both ends (structurally
recursive model of the library function). -/
def pyStrip (s : String) : String :=
  ⟨((s.data.dropWhile Char.isWhitespace).reverse.dropWhile
      Char.isWhitespace).reverse⟩

/-- Model of `SaleItem.__post_init__` validation, as a fallible constructor: quantity
must be positive, price non-negative, and the name non-blank
(`not self.name.strip()`). -/
def SaleItem.make (name : String) (price : ℚ) (quantity : ℤ) :
    Except SmError SaleItem :=
  if quantity ≤ 0 then .error .validationError
  else if price < 0 then .error .validationError
  else if pyStrip name = "" then .error .validationError
  else .ok ⟨name, price, quantity⟩

/-- Model of `SaleItem.total`: `price * quantity`. -/
def SaleItem.total (it : SaleItem) : ℚ := it.price * (it.quantity : ℚ)

/-- Model of `Table` (src/models/table.py): an order aggregate. -/
structure Table where
  table_number : ℤ
  items : List SaleItem
  is_active : Bool
  created_at : Nat
  finalized_at : Option Nat
deriving Repr, DecidableEq

/-- Model of `Table(table_number)`: the dataclass defaults — empty item list, active,
`created_at = now`, no finalization stamp. -/
def Table.mkNew (number : ℤ) (now : Nat) : Table :=
  ⟨number, [], true, now, none⟩

/-- The item-scanning loop of `Table.add_item`: walk the list; on the first
item with a matching name, bump its quantity in place (no validation, the new
price is discarded) and stop; if no name matches, construct a new `SaleItem`
(validated) and append it. -/
def addItemToList (items : List SaleItem) (name : String) (price : ℚ)
    (quantity : ℤ) : Except SmError (List SaleItem) :=
  match items with
  | [] => (SaleItem.make name price quantity).map (fun it => [it])
  | it :: rest =>
    if it.name = name then
      .ok ({ it with quantity := it.quantity + quantity } :: rest)
    else
      (addItemToList rest name price quantity).map (fun l => it :: l)

/-- Model of `Table.add_item`: rejects mutation of a finalized table, then runs the
scan-or-append loop. -/
def Table.add_item (t : Table) (name : String) (price : ℚ) (quantity : ℤ) :
    Except SmError Table :=
  if !t.is_active then .error .invalidState
  else (addItemToList t.items name price quantity).map
    (fun l => { t with items := l })

/-- Model of `Table.remove_item`: rejects mutation of a finalized table; checks
`0 <= index < len(items)` and pops the element, else `IndexError`. -/
def Table.remove_item (t : Table) (index : ℤ) : Except SmError Table :=
  if !t.is_active then .error .invalidState
  else if 0 ≤ index ∧ index < (t.items.length : ℤ) then
    .ok { t with items := removeAt t.items index.toNat }
  else .error .indexOutOfRange

/-- Model of `Table.update_item_quantity`: rejects mutation of a finalized table;
on a valid index, a non-positive new quantity delegates to `remove_item`,
otherwise the quantity is set directly. -/
def Table.update_item_quantity (t : Table) (index : ℤ) (new_quantity : ℤ) :
    Except SmError Table :=
  if !t.is_active then .error .invalidState
  else if 0 ≤ index ∧ index < (t.items.length : ℤ) then
    if new_quantity ≤ 0 then t.remove_item index
    else .ok { t with
      items := modifyAt t.items index.toNat
        (fun it => { it with quantity := new_quantity }) }
  else .error .indexOutOfRange

/-- Model of `Table.update_item_price`: rejects mutation of a finalized table; on a
valid index, rejects a negative price, otherwise sets the price directly. -/
def Table.update_item_price (t : Table) (index : ℤ) (new_price : ℚ) :
    Except SmError Table :=
  if !t.is_active then .error .invalidState
  else if 0 ≤ index ∧ index < (t.items.length : ℤ) then
    if new_price < 0 then .error .validationError
    else .ok { t with
      items := modifyAt t.items index.toNat
        (fun it => { it with price := new_price }) }
  else .error .indexOutOfRange

/-- Model of `Table.get_total`: sum of the items' totals. -/
def Table.get_total (t : Table) : ℚ := (t.items.map SaleItem.total).sum

/-- Model of `Table.get_item_count`: sum of the items' quantities. -/
def Table.get_item_count (t : Table) : ℤ := (t.items.map SaleItem.quantity).sum

/-- Model of `Table.finalize`: the source checks only `if not self.items` (empty item
list) and otherwise sets `is_active = False` and stamps
`finalized_at = datetime.now()`; there is no check of `is_active`. -/
def Table.finalize (t : Table) (now : Nat) : Except SmError Table :=
  if t.items.isEmpty then .error .invalidState
  else .ok { t with is_active := false, finalized_at := some now }

/-- Serialized item dict: the shape produced by `SaleItem.to_dict` and by the
snapshot loop in `MainWindow.save_to_daily_sales` (name, price, quantity and
the derived total). -/
structure ItemDict where
  name : String
  price : ℚ
  quantity : ℤ
  total : ℚ
deriving Repr, DecidableEq

/-- Model of `SaleItem.to_dict`. -/
def SaleItem.to_dict (it : SaleItem) : ItemDict :=
  ⟨it.name, it.price, it.quantity, it.total⟩

/-- Serialized table dict: the shape produced by `Table.to_dict`, including
the derived `total` and `item_count` fields. -/
structure TableDict where
  table_number : ℤ
  items : List ItemDict
  is_active : Bool
  created_at : Nat
  finalized_at : Option Nat
  total : ℚ
  item_count : ℤ
deriving Repr, DecidableEq

/-- Model of `Table.to_dict`. -/
def Table.to_dict (t : Table) : TableDict :=
  ⟨t.table_number, t.items.map SaleItem.to_dict, t.is_active, t.created_at,
    t.finalized_at, t.get_total, t.get_item_count⟩

/-- The `settings` section of the backing JSON document
(src/utils/data_manager.py): holds the table-numbering counter. -/
structure Settings where
  last_table_number : ℤ
  created_at : Nat
deriving Repr, DecidableEq

/-- The backing JSON document of `DataManager`: a `tables` section (display
name to serialized table) and a `settings` section. -/
structure StoredDoc where
  tables : List (String × TableDict)
  settings : Settings
deriving Repr, DecidableEq

/-- The serialized `tables` section written by `DataManager.save_tables`:
`{name: table.to_dict() for name, table in tables.items()}`. -/
def serializeBook (book : List (String × Table)) : List (String × TableDict) :=
  book.map (fun p => (p.1, p.2.to_dict))

/-- Model of `DataManager.save_tables`: read-modify-write — load the current document,
overwrite only its `tables` section with the serialized table map, and write
the document back. -/
def save_tables (doc : StoredDoc) (book : List (String × Table)) : StoredDoc :=
  { doc with tables := serializeBook book }

/-- Model of `DataManager.get_next_table_number`: read the counter, add one, persist
the bumped counter, return the new number. -/
def get_next_table_number (doc : StoredDoc) : ℤ × StoredDoc :=
  let next := doc.settings.last_table_number + 1
  (next, { doc with settings := { doc.settings with last_table_number := next } })

/-- Model of `SalesController` state: the in-memory table map (`self.tables`, a dict)
together with the backing document held by its `DataManager`. Observer
callbacks receive no data and cannot touch this state, so they are not
modelled. -/
structure SalesController where
  tables : List (String × Table)
  store : StoredDoc
deriving Repr, DecidableEq

/-- Model of `SalesController.save_data`: persist the whole in-memory table map through
`DataManager.save_tables`. -/
def SalesController.save_data (c : SalesController) : SalesController :=
  { c with store := save_tables c.store c.tables }

/-- Display name derived from a table number: `f"Table {table_number}"`. -/
def tableNameOf (n : ℤ) : String := "Table " ++ toString n

/-- The `while table_name in self.tables` re-draw loop of
`SalesController.create_table`, with explicit fuel. Each draw strictly
increases the persisted counter, so at most `len(tables)` of the candidate
names can collide and fuel `len(tables) + 1` always suffices; on (unreachable)
fuel exhaustion the model keeps the last drawn number. -/
def createLoop (tables : List (String × Table)) :
    Nat → ℤ → StoredDoc → ℤ × StoredDoc
  | fuel, num, doc =>
    if (dictGet tables (tableNameOf num)).isSome then
      match fuel with
      | 0 => (num, doc)
      | fuel + 1 =>
        let (n', doc') := get_next_table_number doc
        createLoop tables fuel n' doc'
    else (num, doc)

/-- Model of `SalesController.create_table`: draw a number, re-draw while the derived
name collides, insert a fresh `Table`, persist, notify; returns the name. -/
def SalesController.create_table (c : SalesController) (now : Nat) :
    String × SalesController :=
  let (n0, doc0) := get_next_table_number c.store
  let (n, doc1) := createLoop c.tables (c.tables.length + 1) n0 doc0
  let name := tableNameOf n
  let c' : SalesController :=
    { tables := dictSet c.tables name (Table.mkNew n now), store := doc1 }
  (name, c'.save_data)

/-- Model of `SalesController.delete_table`: remove the entry if present, persist,
notify; returns whether it existed. -/
def SalesController.delete_table (c : SalesController) (table_name : String) :
    Bool × SalesController :=
  match dictGet c.tables table_name with
  | some _ =>
    (true, SalesController.save_data { c with tables := dictDel c.tables table_name })
  | none => (false, c)

/-- Model of `SalesController.add_item_to_table`: look the table up, delegate to
`Table.add_item`, persist and notify on success, convert errors to `false`. -/
def SalesController.add_item_to_table (c : SalesController)
    (table_name item_name : String) (price : ℚ) (quantity : ℤ) :
    Bool × SalesController :=
  match dictGet c.tables table_name with
  | none => (false, c)
  | some t =>
    match t.add_item item_name price quantity with
    | .error _ => (false, c)
    | .ok t' =>
      (true, SalesController.save_data { c with tables := dictSet c.tables table_name t' })

/-- Model of `SalesController.remove_item_from_table`. -/
def SalesController.remove_item_from_table (c : SalesController)
    (table_name : String) (item_index : ℤ) : Bool × SalesController :=
  match dictGet c.tables table_name with
  | none => (false, c)
  | some t =>
    match t.remove_item item_index with
    | .error _ => (false, c)
    | .ok t' =>
      (true, SalesController.save_data { c with tables := dictSet c.tables table_name t' })

/-- Model of `SalesController.update_item_quantity`. -/
def SalesController.update_item_quantity (c : SalesController)
    (table_name : String) (item_index new_quantity : ℤ) :
    Bool × SalesController :=
  match dictGet c.tables table_name with
  | none => (false, c)
  | some t =>
    match t.update_item_quantity item_index new_quantity with
    | .error _ => (false, c)
    | .ok t' =>
      (true, SalesController.save_data { c with tables := dictSet c.tables table_name t' })

/-- Model of `SalesController.update_item_price`. -/
def SalesController.update_item_price (c : SalesController)
    (table_name : String) (item_index : ℤ) (new_price : ℚ) :
    Bool × SalesController :=
  match dictGet c.tables table_name with
  | none => (false, c)
  | some t =>
    match t.update_item_price item_index new_price with
    | .error _ => (false, c)
    | .ok t' =>
      (true, SalesController.save_data { c with tables := dictSet c.tables table_name t' })

/-- Model of `SalesController.finalize_table`. -/
def SalesController.finalize_table (c : SalesController)
    (table_name : String) (now : Nat) : Bool × SalesController :=
  match dictGet c.tables table_name with
  | none => (false, c)
  | some t =>
    match t.finalize now with
    | .error _ => (false, c)
    | .ok t' =>
      (true, SalesController.save_data { c with tables := dictSet c.tables table_name t' })

/-- Model of `SalesController.create_table_with_name`: inserts a fresh `Table` under
the given name and notifies observers. The source contains no
`self.save_data()` call on this path. -/
def SalesController.create_table_with_name (c : SalesController)
    (table_name : String) (table_number : ℤ) (now : Nat) :
    Bool × SalesController :=
  (true, { c with tables := dictSet c.tables table_name (Table.mkNew table_number now) })

/-- Model of `SalesController.get_or_create_table`: return the existing table at the
name, else create one via `create_table_with_name` (no counter draw). -/
def SalesController.get_or_create_table (c : SalesController)
    (table_name : String) (table_number : ℤ) (now : Nat) :
    Option Table × SalesController :=
  match dictGet c.tables table_name with
  | some t => (some t, c)
  | none =>
    let c' := (c.create_table_with_name table_name table_number now).2
    (dictGet c'.tables table_name, c')

/-- The record returned by `SalesController.get_sales_summary`. -/
structure SalesSummary where
  total_sales : ℚ
  total_items : ℤ
  active_tables : Nat
  finalized_tables : Nat
  total_tables : Nat
deriving Repr, DecidableEq

/-- One iteration of the `for table in self.tables.values()` loop of
`get_sales_summary`: active tables are only counted; finalized tables are
counted and contribute their total and item count. -/
def summaryStep (acc : SalesSummary) (t : Table) : SalesSummary :=
  if t.is_active then { acc with active_tables := acc.active_tables + 1 }
  else { acc with
    finalized_tables := acc.finalized_tables + 1,
    total_sales := acc.total_sales + t.get_total,
    total_items := acc.total_items + t.get_item_count }

/-- Model of `SalesController.get_sales_summary`: scan the live table map, counting
active and finalized tables and summing totals and item counts over the
finalized ones; `total_tables` is the size of the map. -/
def SalesController.get_sales_summary (c : SalesController) : SalesSummary :=
  let s := (c.tables.map Prod.snd).foldl summaryStep ⟨0, 0, 0, 0, 0⟩
  { s with total_tables := c.tables.length }

/-- A finalized-order snapshot, the `sales_data` dict built in
`MainWindow.save_to_daily_sales`: table identity, finalization timestamp,
item dicts, total amount and item-line count. -/
structure OrderSnapshot where
  table_name : String
  table_number : ℤ
  finalized_at : Nat
  items : List ItemDict
  total_amount : ℚ
  items_count : Nat
deriving Repr, DecidableEq

/-- The hour bucket `datetime.fromisoformat(ts).strftime("%H:00")`, with
timestamps modelled as minutes: the hour-of-day of the stamp. -/
def hourKey (ts : Nat) : Nat := ts / 60 % 24

/-- A daily sales document `daily_sales_YYYY-MM-DD.json`. -/
structure DailyData where
  date : String
  total_sales : ℚ
  total_orders : ℤ
  items_sold : List (String × ℤ)
  hourly_breakdown : List (Nat × ℚ)
  orders : List OrderSnapshot
deriving Repr, DecidableEq

/-- An entry of `order_removals_audit.json` (`MainWindow.log_order_removal`). -/
structure AuditEntry where
  removal_timestamp : Nat
  original_date : String
  removed_order : OrderSnapshot
  reason : String
deriving Repr, DecidableEq

/-- One iteration of the items-sold update loop of
`MainWindow.update_daily_sales`: add the item's quantity to its cumulative
count, starting a fresh entry when the name is new. -/
def recStep (m : List (String × ℤ)) (it : ItemDict) : List (String × ℤ) :=
  match dictGet m it.name with
  | some q => dictSet m it.name (q + it.quantity)
  | none => dictSet m it.name it.quantity

/-- One iteration of the items-sold update loop of
`MainWindow.remove_sale_order`: subtract the item's quantity from its
cumulative count when the name is present, deleting the entry when the count
drops to zero or below; names absent from the map are skipped. -/
def remStep (m : List (String × ℤ)) (it : ItemDict) : List (String × ℤ) :=
  match dictGet m it.name with
  | some q =>
    if q - it.quantity ≤ 0 then dictDel m it.name
    else dictSet m it.name (q - it.quantity)
  | none => m

/-- The hourly-breakdown update of `MainWindow.update_daily_sales`: add the
amount into the hour's bucket, starting a fresh bucket when the hour is new. -/
def hbRec (hb : List (Nat × ℚ)) (h : Nat) (a : ℚ) : List (Nat × ℚ) :=
  match dictGet hb h with
  | some v => dictSet hb h (v + a)
  | none => dictSet hb h a

/-- The hourly-breakdown update of `MainWindow.remove_sale_order`: subtract
the amount from the hour's bucket when present, deleting the bucket when it
drops to zero or below; an absent hour is skipped. -/
def hbRem (hb : List (Nat × ℚ)) (h : Nat) (a : ℚ) : List (Nat × ℚ) :=
  match dictGet hb h with
  | some v => if v - a ≤ 0 then dictDel hb h else dictSet hb h (v - a)
  | none => hb

/-- Model of `MainWindow.update_daily_sales` on a loaded daily document: add the
snapshot's total to `total_sales`, bump `total_orders`, merge the items into
`items_sold`, add the total into the snapshot hour's bucket of
`hourly_breakdown`, and append the snapshot to `orders`. -/
def recordOrder (d : DailyData) (s : OrderSnapshot) : DailyData :=
  let sold := s.items.foldl recStep d.items_sold
  let hb := hbRec d.hourly_breakdown (hourKey s.finalized_at) s.total_amount
  { d with
    total_sales := d.total_sales + s.total_amount,
    total_orders := d.total_orders + 1,
    items_sold := sold,
    hourly_breakdown := hb,
    orders := d.orders ++ [s] }

/-- Python list indexing: a non-negative index must be below the length; a
negative index `i` with `-len <= i` wraps to `len + i`; anything else raises
`IndexError`. -/
def pyIndexOf (len : Nat) (i : ℤ) : Option Nat :=
  if 0 ≤ i then (if i < (len : ℤ) then some i.toNat else none)
  else if -(len : ℤ) ≤ i then some ((len : ℤ) + i).toNat
  else none

/-- The ledger-mutation core of `MainWindow.remove_sale_order`, after the
admin-password and confirmation dialogs: reject `order_index >= len(orders)`
with the "Order not found!" path; fetch `orders[order_index]` by Python
indexing (an out-of-range negative index raises `IndexError`, caught by the
surrounding handler before any mutation); subtract the snapshot's total from
`total_sales`, decrement `total_orders`, subtract its items from `items_sold`
(deleting entries that drop to zero or below), subtract from the matching
hourly bucket (deleting it when it drops to zero or below), pop the snapshot
from `orders`, and append exactly one entry to the removal audit log. -/
def removeOrder (d : DailyData) (audit : List AuditEntry) (order_index : ℤ)
    (now : Nat) (date_str : String) :
    Except SmError (DailyData × List AuditEntry) :=
  if (d.orders.length : ℤ) ≤ order_index then .error .notFound
  else
    match pyIndexOf d.orders.length order_index with
    | none => .error .indexOutOfRange
    | some j =>
      match d.orders.get? j with
      | none => .error .indexOutOfRange
      | some s =>
        let sold := s.items.foldl remStep d.items_sold
        let hb := hbRem d.hourly_breakdown (hourKey s.finalized_at) s.total_amount
        let d' : DailyData :=
          { d with
            total_sales := d.total_sales - s.total_amount,
            total_orders := d.total_orders - 1,
            items_sold := sold,
            hourly_breakdown := hb,
            orders := removeAt d.orders j }
        .ok (d', audit ++ [⟨now, date_str, s, "Manual removal via admin interface"⟩])

/-! Helper lemmas about the dict and list models. -/

theorem dictGet_set {κ β : Type} [DecidableEq κ] (m : List (κ × β)) (k q : κ)
    (v : β) :
    dictGet (dictSet m k v) q = if k = q then some v else dictGet m q := by
  induction m with
  | nil => by_cases h : k = q <;> simp [dictSet, dictGet, h]
  | cons p rest ih =>
    obtain ⟨k', v'⟩ := p
    by_cases h1 : k' = k
    · subst h1
      by_cases h2 : k' = q <;> simp [dictSet, dictGet, h2]
    · by_cases h2 : k' = q
      · subst h2
        have : ¬ k = k' := fun h => h1 h.symm
        simp [dictSet, dictGet, h1, this]
      · simp [dictSet, dictGet, h1, h2, ih]

theorem dictGet_del {κ β : Type} [DecidableEq κ] (m : List (κ × β)) (k q : κ) :
    dictGet (dictDel m k) q = if k = q then none else dictGet m q := by
  induction m with
  | nil => by_cases h : k = q <;> simp [dictDel, dictGet, h]
  | cons p rest ih =>
    obtain ⟨k', v'⟩ := p
    by_cases h1 : k' = k
    · subst h1
      by_cases h2 : k' = q
      · subst h2
        simp [dictDel, ih]
      · simp [dictDel, dictGet, h2, ih]
    · by_cases h2 : k' = q
      · subst h2
        have : ¬ k = k' := fun h => h1 h.symm
        simp [dictDel, dictGet, h1, this]
      · simp [dictDel, dictGet, h1, h2, ih]

theorem dictGet_mem {κ β : Type} [DecidableEq κ] {m : List (κ × β)} {k : κ}
    {v : β} (h : dictGet m k = some v) : (k, v) ∈ m := by
  induction m with
  | nil => simp [dictGet] at h
  | cons p rest ih =>
    obtain ⟨k', v'⟩ := p
    by_cases h1 : k' = k
    · subst h1
      simp [dictGet] at h
      simp [h]
    · simp [dictGet, h1] at h
      exact List.mem_cons_of_mem _ (ih h)

theorem get?_append_len {α : Type} (l : List α) (a : α) :
    (l ++ [a]).get? l.length = some a := by
  induction l with
  | nil => rfl
  | cons b rest ih => simp [ih]

theorem removeAt_append_len {α : Type} (l : List α) (a : α) :
    removeAt (l ++ [a]) l.length = l := by
  induction l with
  | nil => rfl
  | cons b rest ih => simp [removeAt, ih]

theorem dictGet_recStep (m : List (String × ℤ)) (it : ItemDict) (k : String) :
    dictGet (recStep m it) k =
      if it.name = k then some ((dictGet m it.name).getD 0 + it.quantity)
      else dictGet m k := by
  unfold recStep
  cases h : dictGet m it.name with
  | none =>
    by_cases hk : it.name = k
    · subst hk
      simp [dictGet_set, h]
    · simp [dictGet_set, hk]
  | some q =>
    by_cases hk : it.name = k
    · subst hk
      simp [dictGet_set, h]
    · simp [dictGet_set, hk]

theorem dictGet_remStep (m : List (String × ℤ)) (it : ItemDict) (k : String) :
    dictGet (remStep m it) k =
      if it.name = k then
        (match dictGet m it.name with
          | none => none
          | some q =>
            if q - it.quantity ≤ 0 then none else some (q - it.quantity))
      else dictGet m k := by
  unfold remStep
  cases h : dictGet m it.name with
  | none =>
    by_cases hk : it.name = k
    · subst hk
      simp [h]
    · simp [hk]
  | some q =>
    by_cases hk : it.name = k
    · subst hk
      by_cases hq : q - it.quantity ≤ 0 <;> simp [hq, dictGet_del, dictGet_set, h]
    · by_cases hq : q - it.quantity ≤ 0 <;> simp [hq, dictGet_del, dictGet_set, hk]

theorem recFold_congrAt (l : List ItemDict) (m m' : List (String × ℤ))
    (k : String) (h : dictGet m k = dictGet m' k) :
    dictGet (l.foldl recStep m) k = dictGet (l.foldl recStep m') k := by
  induction l generalizing m m' with
  | nil => exact h
  | cons it rest ih =>
    rw [List.foldl_cons, List.foldl_cons]
    apply ih
    rw [dictGet_recStep, dictGet_recStep]
    by_cases hk : it.name = k
    · subst hk
      rw [h]
    · rw [if_neg hk, if_neg hk]
      exact h

theorem remFold_congrAt (l : List ItemDict) (m m' : List (String × ℤ))
    (k : String) (h : dictGet m k = dictGet m' k) :
    dictGet (l.foldl remStep m) k = dictGet (l.foldl remStep m') k := by
  induction l generalizing m m' with
  | nil => exact h
  | cons it rest ih =>
    rw [List.foldl_cons, List.foldl_cons]
    apply ih
    rw [dictGet_remStep, dictGet_remStep]
    by_cases hk : it.name = k
    · subst hk
      rw [h]
    · rw [if_neg hk, if_neg hk]
      exact h

theorem recFold_untouched (l : List ItemDict) (m : List (String × ℤ))
    (k : String) (h : ∀ x ∈ l, x.name ≠ k) :
    dictGet (l.foldl recStep m) k = dictGet m k := by
  induction l generalizing m with
  | nil => rfl
  | cons it rest ih =>
    rw [List.foldl_cons, ih _ (fun x hx => h x (List.mem_cons_of_mem _ hx))]
    rw [dictGet_recStep, if_neg (h it (List.mem_cons_self _ _))]

theorem rem_rec_commute (rest : List ItemDict) (m : List (String × ℤ))
    (it : ItemDict) (k : String) (hn : ∀ x ∈ rest, x.name ≠ it.name) :
    dictGet (remStep (rest.foldl recStep m) it) k =
      dictGet (rest.foldl recStep (remStep m it)) k := by
  by_cases hk : it.name = k
  · subst hk
    rw [dictGet_remStep, if_pos rfl]
    rw [recFold_untouched rest (remStep m it) it.name hn]
    rw [recFold_untouched rest m it.name hn]
    rw [dictGet_remStep, if_pos rfl]
  · rw [dictGet_remStep, if_neg hk]
    apply recFold_congrAt
    rw [dictGet_remStep, if_neg hk]

theorem rem_rec_cancel (m : List (String × ℤ)) (it : ItemDict) (k : String)
    (hq : 0 < it.quantity)
    (hm : ∀ v, dictGet m it.name = some v → 0 < v) :
    dictGet (remStep (recStep m it) it) k = dictGet m k := by
  rw [dictGet_remStep]
  by_cases hk : it.name = k
  · rw [if_pos hk]
    rw [dictGet_recStep, if_pos rfl]
    cases h : dictGet m it.name with
    | none =>
      subst hk
      rw [h]
      simp
    | some v =>
      have hv : 0 < v := hm v h
      subst hk
      rw [h]
      have h1 : v + it.quantity - it.quantity = v := by ring
      simp [h1, not_le.mpr hv]
  · rw [if_neg hk, dictGet_recStep, if_neg hk]

theorem items_roundtrip (l : List ItemDict) (m : List (String × ℤ))
    (hq : ∀ it ∈ l, 0 < it.quantity)
    (hnd : (l.map ItemDict.name).Nodup)
    (hm : ∀ p ∈ m, 0 < p.2) (k : String) :
    dictGet (l.foldl remStep (l.foldl recStep m)) k = dictGet m k := by
  induction l generalizing k with
  | nil => rfl
  | cons it rest ih =>
    rw [List.foldl_cons, List.foldl_cons]
    have hnd2 : (∀ x ∈ rest, ¬ x.name = it.name) ∧
        (rest.map ItemDict.name).Nodup := by
      simpa using hnd
    have hrest : ∀ x ∈ rest, x.name ≠ it.name := hnd2.1
    have hmV : ∀ v, dictGet m it.name = some v → 0 < v :=
      fun v hv => hm (it.name, v) (dictGet_mem hv)
    have step2 : ∀ k', dictGet (remStep (recStep m it) it) k' = dictGet m k' :=
      fun k' => rem_rec_cancel m it k' (hq it (List.mem_cons_self _ _)) hmV
    calc dictGet (rest.foldl remStep (remStep (rest.foldl recStep (recStep m it)) it)) k
        = dictGet (rest.foldl remStep (rest.foldl recStep (remStep (recStep m it) it))) k :=
          remFold_congrAt rest _ _ k (rem_rec_commute rest (recStep m it) it k hrest)
      _ = dictGet (rest.foldl remStep (rest.foldl recStep m)) k :=
          remFold_congrAt rest _ _ k (recFold_congrAt rest _ _ k (step2 k))
      _ = dictGet m k :=
          ih (fun x hx => hq x (List.mem_cons_of_mem _ hx)) hnd2.2 k

theorem hourly_roundtrip (hb : List (Nat × ℚ)) (h : Nat) (a : ℚ)
    (hpos : ∀ p ∈ hb, 0 < p.2) (k : Nat) :
    dictGet (hbRem (hbRec hb h a) h a) k = dictGet hb k := by
  cases hg : dictGet hb h with
  | none =>
    have e1 : hbRec hb h a = dictSet hb h a := by
      unfold hbRec
      rw [hg]
    rw [e1]
    have e2 : dictGet (dictSet hb h a) h = some a := by
      rw [dictGet_set, if_pos rfl]
    have e3 : hbRem (dictSet hb h a) h a = dictDel (dictSet hb h a) h := by
      unfold hbRem
      rw [e2]
      simp
    rw [e3]
    by_cases hk : h = k
    · subst hk
      rw [dictGet_del, if_pos rfl, hg]
    · rw [dictGet_del, if_neg hk, dictGet_set, if_neg hk]
  | some v =>
    have hv : 0 < v := hpos (h, v) (dictGet_mem hg)
    have e1 : hbRec hb h a = dictSet hb h (v + a) := by
      unfold hbRec
      rw [hg]
    rw [e1]
    have e2 : dictGet (dictSet hb h (v + a)) h = some (v + a) := by
      rw [dictGet_set, if_pos rfl]
    have h1 : v + a - a = v := by ring
    have e3 : hbRem (dictSet hb h (v + a)) h a =
        dictSet (dictSet hb h (v + a)) h v := by
      unfold hbRem
      rw [e2]
      simp [h1, not_le.mpr hv]
    rw [e3]
    by_cases hk : h = k
    · subst hk
      rw [dictGet_set, if_pos rfl, hg]
    · rw [dictGet_set, if_neg hk, dictGet_set, if_neg hk]

theorem addItemToList_new (l : List SaleItem) (n : String) (p : ℚ) (q : ℤ)
    (hn : ∀ x ∈ l, x.name ≠ n) (hq : 0 < q) (hp : 0 ≤ p)
    (hs : pyStrip n ≠ "") :
    addItemToList l n p q = .ok (l ++ [⟨n, p, q⟩]) := by
  induction l with
  | nil =>
    unfold addItemToList SaleItem.make
    rw [if_neg (by omega), if_neg (not_lt.mpr hp), if_neg hs]
    rfl
  | cons it rest ih =>
    unfold addItemToList
    rw [if_neg (hn it (List.mem_cons_self _ _))]
    rw [ih (fun x hx => hn x (List.mem_cons_of_mem _ hx))]
    rfl

theorem addItemToList_repeat (pre : List SaleItem) (it : SaleItem)
    (post : List SaleItem) (n : String) (p : ℚ) (q : ℤ)
    (hpre : ∀ x ∈ pre, x.name ≠ n) (hn : it.name = n) :
    addItemToList (pre ++ it :: post) n p q =
      .ok (pre ++ { it with quantity := it.quantity + q } :: post) := by
  induction pre with
  | nil => simp [addItemToList, hn]
  | cons a rest ih =>
    have ha1 : a.name ≠ n := hpre a (List.mem_cons_self _ _)
    simp [addItemToList, Except.map, ha1,
      ih (fun x hx => hpre x (List.mem_cons_of_mem _ hx))]

/-! The claims. -/

/-- C1 (amended): `Table.finalize` fails with `InvalidStateError` exactly when
the item list is empty; on any table with a non-empty item list — active or
already finalized — it succeeds, setting `is_active := false` and stamping
`finalized_at := now`. In particular a second `finalize()` call on a
finalized non-empty table does NOT fail: it silently succeeds again,
re-stamping `finalized_at`, contrary to the claim's "every subsequent
finalize() call fails". -/
theorem claim_C1_finalize (t : Table) (now now2 : Nat) :
    (t.items = [] → t.finalize now = .error .invalidState) ∧
    (t.items ≠ [] →
      t.finalize now = .ok { t with is_active := false, finalized_at := some now }) ∧
    (t.items ≠ [] →
      (t.finalize now).bind (fun u => u.finalize now2) =
        .ok { t with is_active := false, finalized_at := some now2 }) := by
  refine ⟨fun h => ?_, fun h => ?_, fun h => ?_⟩
  · simp [Table.finalize, h]
  · simp [Table.finalize, h]
  · simp [Table.finalize, Except.bind, h]

/-- C1 counterexample: the table below is already finalized (stamped at time
3) and non-empty, yet `finalize` at time 9 succeeds again and re-stamps
`finalized_at`, refuting "every subsequent finalize() call on that Table
fails". -/
theorem claim_C1_counterexample :
    Table.finalize ⟨1, [⟨"Tea", 5, 1⟩], false, 0, some 3⟩ 9 =
      .ok ⟨1, [⟨"Tea", 5, 1⟩], false, 0, some 9⟩ := by
  rfl

/-- C1 witness: finalizing an empty table fails; finalizing a non-empty
active table twice succeeds both times. -/
theorem claim_C1_witness :
    Table.finalize ⟨1, [], true, 0, none⟩ 3 = .error .invalidState ∧
    (Table.finalize ⟨1, [⟨"Tea", 5, 1⟩], true, 0, none⟩ 3).bind
        (fun u => u.finalize 9) =
      .ok ⟨1, [⟨"Tea", 5, 1⟩], false, 0, some 9⟩ :=
  ⟨(claim_C1_finalize ⟨1, [], true, 0, none⟩ 3 3).1 rfl,
   (claim_C1_finalize ⟨1, [⟨"Tea", 5, 1⟩], true, 0, none⟩ 3 9).2.2 (by simp)⟩

/-- C5: on an active table with no line named `n`, adding `(n, p1, q1)` and
then `(n, p2, q2)` yields the original items plus a single new line
`⟨n, p1, q1 + q2⟩`: the quantity accumulates and the price remains the one
from the first add (the later price argument `p2` is discarded). -/
theorem claim_C5_add_same_name (t : Table) (n : String) (p1 p2 : ℚ)
    (q1 q2 : ℤ) (ha : t.is_active = true)
    (habs : ∀ x ∈ t.items, x.name ≠ n) (hq1 : 0 < q1) (hp1 : 0 ≤ p1)
    (hs : pyStrip n ≠ "") :
    (t.add_item n p1 q1).bind (fun u => u.add_item n p2 q2) =
      .ok { t with items := t.items ++ [⟨n, p1, q1 + q2⟩] } := by
  have h1 : t.add_item n p1 q1 = .ok { t with items := t.items ++ [⟨n, p1, q1⟩] } := by
    simp [Table.add_item, Except.map, ha,
      addItemToList_new t.items n p1 q1 habs hq1 hp1 hs]
  rw [h1]
  show Table.add_item { t with items := t.items ++ [⟨n, p1, q1⟩] } n p2 q2 = _
  simp [Table.add_item, Except.map, ha,
    addItemToList_repeat t.items ⟨n, p1, q1⟩ [] n p2 q2 habs rfl]

/-- C5 witness: the spec's scenario — add `("Coffee", 7/2, 2)` then
`("Coffee", 7/2, 1)` to a fresh active table: one line, quantity 3,
price 7/2 (so the table total is 21/2 = 10.50). -/
theorem claim_C5_witness :
    (Table.add_item ⟨1, [], true, 0, none⟩ "Coffee" (7/2) 2).bind
        (fun u => u.add_item "Coffee" (7/2) 1) =
      .ok ⟨1, [⟨"Coffee", 7/2, 3⟩], true, 0, none⟩ ∧
    Table.get_total ⟨1, [⟨"Coffee", 7/2, 3⟩], true, 0, none⟩ = 21/2 := by
  constructor
  · have h := claim_C5_add_same_name ⟨1, [], true, 0, none⟩ "Coffee" (7/2) (7/2)
      2 1 rfl (by simp) (by norm_num) (by norm_num) (by decide)
    simpa using h
  · norm_num [Table.get_total, SaleItem.total]

/-- C6: every item mutation on a finalized table (`is_active = false`) —
`add_item`, `remove_item`, `update_item_quantity`, `update_item_price` —
fails with `InvalidStateError`; since each returns an error, the table (and
so its item list) is unchanged. -/
theorem claim_C6_finalized_mutations (t : Table) (h : t.is_active = false)
    (name : String) (price : ℚ) (q idx nq : ℤ) (np : ℚ) :
    t.add_item name price q = .error .invalidState ∧
    t.remove_item idx = .error .invalidState ∧
    t.update_item_quantity idx nq = .error .invalidState ∧
    t.update_item_price idx np = .error .invalidState := by
  refine ⟨?_, ?_, ?_, ?_⟩ <;>
    simp [Table.add_item, Table.remove_item, Table.update_item_quantity,
      Table.update_item_price, h]

/-- C6 witness: a concrete finalized table rejects all four mutations. -/
theorem claim_C6_witness :
    Table.add_item ⟨1, [⟨"Tea", 5, 1⟩], false, 0, some 3⟩ "Cake" 2 1 =
      .error .invalidState ∧
    Table.remove_item ⟨1, [⟨"Tea", 5, 1⟩], false, 0, some 3⟩ 0 =
      .error .invalidState ∧
    Table.update_item_quantity ⟨1, [⟨"Tea", 5, 1⟩], false, 0, some 3⟩ 0 2 =
      .error .invalidState ∧
    Table.update_item_price ⟨1, [⟨"Tea", 5, 1⟩], false, 0, some 3⟩ 0 2 =
      .error .invalidState :=
  claim_C6_finalized_mutations ⟨1, [⟨"Tea", 5, 1⟩], false, 0, some 3⟩ rfl
    "Cake" 2 1 0 2 2

/-- C7: on an active table and a valid index, `update_item_quantity` with a
non-positive new quantity produces exactly the state `remove_item` produces;
with a positive new quantity it sets that line's quantity directly. -/
theorem claim_C7_update_quantity (t : Table) (idx nq : ℤ)
    (ha : t.is_active = true) (h0 : 0 ≤ idx)
    (hl : idx < (t.items.length : ℤ)) :
    (nq ≤ 0 → t.update_item_quantity idx nq = t.remove_item idx) ∧
    (0 < nq → t.update_item_quantity idx nq =
      .ok { t with items := modifyAt t.items idx.toNat (fun it => { it with quantity := nq }) }) := by
  constructor
  · intro h
    simp [Table.update_item_quantity, Table.remove_item, ha, h0, hl, h]
  · intro h
    simp [Table.update_item_quantity, ha, h0, hl, not_le.mpr h]

/-- C7 witness: on a two-item active table, `update_item_quantity(1, 0)`
equals `remove_item(1)` (leaving one item), and `update_item_quantity(1, 4)`
sets the second line's quantity to 4. -/
theorem claim_C7_witness :
    Table.update_item_quantity ⟨1, [⟨"Tea", 5, 1⟩, ⟨"Cake", 3, 2⟩], true, 0, none⟩ 1 0 =
      Table.remove_item ⟨1, [⟨"Tea", 5, 1⟩, ⟨"Cake", 3, 2⟩], true, 0, none⟩ 1 ∧
    Table.update_item_quantity ⟨1, [⟨"Tea", 5, 1⟩, ⟨"Cake", 3, 2⟩], true, 0, none⟩ 1 4 =
      .ok ⟨1, [⟨"Tea", 5, 1⟩, ⟨"Cake", 3, 4⟩], true, 0, none⟩ := by
  constructor
  · exact (claim_C7_update_quantity
      ⟨1, [⟨"Tea", 5, 1⟩, ⟨"Cake", 3, 2⟩], true, 0, none⟩ 1 0 rfl
      (by decide) (by decide)).1 (by decide)
  · have h := (claim_C7_update_quantity
      ⟨1, [⟨"Tea", 5, 1⟩, ⟨"Cake", 3, 2⟩], true, 0, none⟩ 1 4 rfl
      (by decide) (by decide)).2 (by decide)
    simpa [modifyAt] using h

/-- C9: `DataManager.save_tables` is a read-modify-write that replaces only
the `tables` section of the stored document with the serialized table map and
leaves the `settings` section (with its `last_table_number` counter) exactly
as it was. -/
theorem claim_C9_save_tables_frame (doc : StoredDoc)
    (book : List (String × Table)) :
    (save_tables doc book).settings = doc.settings ∧
    (save_tables doc book).tables = serializeBook book :=
  ⟨rfl, rfl⟩

/-- C10: on an active table whose item list splits as `pre ++ it :: post`
with `it` the first line named `n`, `add_item n p q` succeeds for EVERY
quantity argument `q` (no validation on the repeat path) and unconditionally
sets that line's quantity to `it.quantity + q`, which can be zero or
negative; the `SaleItem` positivity invariant is not preserved. -/
theorem claim_C10_add_repeat (t : Table) (n : String) (p : ℚ) (q : ℤ)
    (pre post : List SaleItem) (it : SaleItem) (ha : t.is_active = true)
    (hsplit : t.items = pre ++ it :: post) (hn : it.name = n)
    (hpre : ∀ x ∈ pre, x.name ≠ n) :
    t.add_item n p q =
      .ok { t with items := pre ++ { it with quantity := it.quantity + q } :: post } := by
  simp [Table.add_item, Except.map, ha, hsplit,
    addItemToList_repeat pre it post n p q hpre hn]

/-- C10 witness: re-adding "Tea" with quantity −5 on a line holding 3
succeeds and drives the quantity to −2 ≤ 0. -/
theorem claim_C10_witness :
    Table.add_item ⟨1, [⟨"Tea", 5, 3⟩], true, 0, none⟩ "Tea" 2 (-5) =
      .ok ⟨1, [⟨"Tea", 5, -2⟩], true, 0, none⟩ ∧ (-2 : ℤ) ≤ 0 := by
  constructor
  · have h := claim_C10_add_repeat ⟨1, [⟨"Tea", 5, 3⟩], true, 0, none⟩ "Tea"
      2 (-5) [] [] ⟨"Tea", 5, 3⟩ rfl rfl rfl (by simp)
    simpa using h
  · decide

/-- The controller's persistence invariant: the persisted `tables` section
equals the serialized in-memory table map. -/
abbrev inSync (c : SalesController) : Prop :=
  c.store.tables = serializeBook c.tables

theorem inSync_save (c : SalesController) : inSync c.save_data := rfl

/-- C3 (amended): the ledger removal rejects `order_index >= len(orders)` via
the "Order not found!" check and an index below `-len(orders)` via the caught
`IndexError` — in both cases returning an error, so the document is unchanged
— but an index with `-len <= order_index < 0` is NOT rejected: Python's
negative indexing applies and the removal behaves exactly like removal at
`len(orders) + order_index`. -/
theorem claim_C3_remove_bounds (d : DailyData) (audit : List AuditEntry)
    (i : ℤ) (now : Nat) (ds : String) :
    ((d.orders.length : ℤ) ≤ i →
      removeOrder d audit i now ds = .error .notFound) ∧
    (i < -(d.orders.length : ℤ) →
      removeOrder d audit i now ds = .error .indexOutOfRange) ∧
    (-(d.orders.length : ℤ) ≤ i → i < 0 →
      removeOrder d audit i now ds =
        removeOrder d audit ((d.orders.length : ℤ) + i) now ds) := by
  refine ⟨fun h => ?_, fun h1 => ?_, fun h1 h2 => ?_⟩
  · unfold removeOrder
    rw [if_pos h]
  · unfold removeOrder
    rw [if_neg (by omega)]
    have hp : pyIndexOf d.orders.length i = none := by
      unfold pyIndexOf
      rw [if_neg (by omega), if_neg (by omega)]
    rw [hp]
  · unfold removeOrder
    rw [if_neg (by omega), if_neg (by omega)]
    have hp1 : pyIndexOf d.orders.length i =
        some ((d.orders.length : ℤ) + i).toNat := by
      unfold pyIndexOf
      rw [if_neg (by omega), if_pos (by omega)]
    have hp2 : pyIndexOf d.orders.length ((d.orders.length : ℤ) + i) =
        some ((d.orders.length : ℤ) + i).toNat := by
      unfold pyIndexOf
      rw [if_pos (by omega), if_pos (by omega)]
    rw [hp1, hp2]

/-- C3 witness: on a one-order document, index 1 hits the not-found check,
index −2 hits the `IndexError` path, and index −1 behaves exactly like
index 0. -/
theorem claim_C3_witness :
    removeOrder ⟨"2024-01-01", 5, 1, [("Tea", 1)], [(10, 5)],
        [⟨"Table 2", 2, 610, [⟨"Tea", 5, 1, 5⟩], 5, 1⟩]⟩ [] 1 7 "2024-01-01" =
      .error .notFound ∧
    removeOrder ⟨"2024-01-01", 5, 1, [("Tea", 1)], [(10, 5)],
        [⟨"Table 2", 2, 610, [⟨"Tea", 5, 1, 5⟩], 5, 1⟩]⟩ [] (-2) 7 "2024-01-01" =
      .error .indexOutOfRange ∧
    removeOrder ⟨"2024-01-01", 5, 1, [("Tea", 1)], [(10, 5)],
        [⟨"Table 2", 2, 610, [⟨"Tea", 5, 1, 5⟩], 5, 1⟩]⟩ [] (-1) 7 "2024-01-01" =
      removeOrder ⟨"2024-01-01", 5, 1, [("Tea", 1)], [(10, 5)],
        [⟨"Table 2", 2, 610, [⟨"Tea", 5, 1, 5⟩], 5, 1⟩]⟩ [] 0 7 "2024-01-01" := by
  refine ⟨?_, ?_, ?_⟩
  · exact (claim_C3_remove_bounds ⟨"2024-01-01", 5, 1, [("Tea", 1)], [(10, 5)],
      [⟨"Table 2", 2, 610, [⟨"Tea", 5, 1, 5⟩], 5, 1⟩]⟩ [] 1 7 "2024-01-01").1
      (by decide)
  · exact (claim_C3_remove_bounds ⟨"2024-01-01", 5, 1, [("Tea", 1)], [(10, 5)],
      [⟨"Table 2", 2, 610, [⟨"Tea", 5, 1, 5⟩], 5, 1⟩]⟩ [] (-2) 7 "2024-01-01").2.1
      (by decide)
  · have h := (claim_C3_remove_bounds ⟨"2024-01-01", 5, 1, [("Tea", 1)], [(10, 5)],
      [⟨"Table 2", 2, 610, [⟨"Tea", 5, 1, 5⟩], 5, 1⟩]⟩ [] (-1) 7 "2024-01-01").2.2
      (by decide) (by decide)
    simpa using h

/-- C3 counterexample: with one order on the document, `order_index = -1` is
out of range in the claim's sense (index < 0) but the removal does NOT fail:
it succeeds, removes the last order and mutates every summary field, refuting
"fails with NotFoundError and leaves the ledger document completely
unchanged". -/
theorem claim_C3_counterexample :
    removeOrder ⟨"2024-01-01", 5, 1, [("Tea", 1)], [(10, 5)],
        [⟨"Table 2", 2, 610, [⟨"Tea", 5, 1, 5⟩], 5, 1⟩]⟩ [] (-1) 7 "2024-01-01" =
      .ok (⟨"2024-01-01", 0, 0, [], [], []⟩,
        [⟨7, "2024-01-01", ⟨"Table 2", 2, 610, [⟨"Tea", 5, 1, 5⟩], 5, 1⟩,
          "Manual removal via admin interface"⟩]) := by
  norm_num [removeOrder, pyIndexOf, remStep, hbRem, hourKey, dictGet, dictSet,
    dictDel, removeAt]

/-- C4 (amended): every mutating `SalesController` operation EXCEPT
`create_table_with_name` (and hence the creation path of
`get_or_create_table`) re-establishes the persistence contract: if the
persisted `tables` section matched the in-memory table map before the call,
it matches the in-memory map after it — on success because the operation
ends with `save_data`, on failure because nothing changed. The
`create_table_with_name` path omits the `save_data` call (see the
counterexample). -/
theorem claim_C4_persist (c : SalesController) (h : inSync c)
    (tn iname : String) (p np : ℚ) (q idx nq : ℤ) (now : Nat) :
    inSync (c.add_item_to_table tn iname p q).2 ∧
    inSync (c.remove_item_from_table tn idx).2 ∧
    inSync (c.update_item_quantity tn idx nq).2 ∧
    inSync (c.update_item_price tn idx np).2 ∧
    inSync (c.finalize_table tn now).2 ∧
    inSync (c.delete_table tn).2 ∧
    inSync (c.create_table now).2 := by
  refine ⟨?_, ?_, ?_, ?_, ?_, ?_, ?_⟩
  · unfold SalesController.add_item_to_table
    cases dictGet c.tables tn with
    | none => exact h
    | some t =>
      dsimp only
      cases t.add_item iname p q with
      | error e => exact h
      | ok t' => exact inSync_save _
  · unfold SalesController.remove_item_from_table
    cases dictGet c.tables tn with
    | none => exact h
    | some t =>
      dsimp only
      cases t.remove_item idx with
      | error e => exact h
      | ok t' => exact inSync_save _
  · unfold SalesController.update_item_quantity
    cases dictGet c.tables tn with
    | none => exact h
    | some t =>
      dsimp only
      cases t.update_item_quantity idx nq with
      | error e => exact h
      | ok t' => exact inSync_save _
  · unfold SalesController.update_item_price
    cases dictGet c.tables tn with
    | none => exact h
    | some t =>
      dsimp only
      cases t.update_item_price idx np with
      | error e => exact h
      | ok t' => exact inSync_save _
  · unfold SalesController.finalize_table
    cases dictGet c.tables tn with
    | none => exact h
    | some t =>
      dsimp only
      cases t.finalize now with
      | error e => exact h
      | ok t' => exact inSync_save _
  · unfold SalesController.delete_table
    cases dictGet c.tables tn with
    | none => exact h
    | some t => exact inSync_save _
  · exact inSync_save _

/-- C4 witness: starting from an in-sync controller, each covered operation
leaves the persisted `tables` section equal to the serialized in-memory map. -/
theorem claim_C4_witness :
    inSync (SalesController.add_item_to_table ⟨[], ⟨[], ⟨0, 0⟩⟩⟩ "Table 1" "Tea" 5 2).2 ∧
    inSync (SalesController.remove_item_from_table ⟨[], ⟨[], ⟨0, 0⟩⟩⟩ "Table 1" 1).2 ∧
    inSync (SalesController.update_item_quantity ⟨[], ⟨[], ⟨0, 0⟩⟩⟩ "Table 1" 1 0).2 ∧
    inSync (SalesController.update_item_price ⟨[], ⟨[], ⟨0, 0⟩⟩⟩ "Table 1" 1 2).2 ∧
    inSync (SalesController.finalize_table ⟨[], ⟨[], ⟨0, 0⟩⟩⟩ "Table 1" 7).2 ∧
    inSync (SalesController.delete_table ⟨[], ⟨[], ⟨0, 0⟩⟩⟩ "Table 1").2 ∧
    inSync (SalesController.create_table ⟨[], ⟨[], ⟨0, 0⟩⟩⟩ 7).2 :=
  claim_C4_persist ⟨[], ⟨[], ⟨0, 0⟩⟩⟩ rfl "Table 1" "Tea" 5 2 2 1 0 7

/-- C4 counterexample: `create_table_with_name` applies the in-memory change
and notifies but never persists, so after it the persisted `tables` section
(still empty) differs from the in-memory map (now holding "Table 7"),
refuting "every mutating OrderController operation — including the
get_or_create_table/create_table_with_name creation path — persists the
whole OrderBook". -/
theorem claim_C4_counterexample :
    ¬ inSync (SalesController.create_table_with_name ⟨[], ⟨[], ⟨0, 0⟩⟩⟩
      "Table 7" 7 0).2 := by
  decide

theorem summaryFold (l : List Table) (acc : SalesSummary) :
    l.foldl summaryStep acc =
      ⟨acc.total_sales + ((l.filter (fun t => !t.is_active)).map Table.get_total).sum,
       acc.total_items + ((l.filter (fun t => !t.is_active)).map Table.get_item_count).sum,
       acc.active_tables + (l.filter (fun t => t.is_active)).length,
       acc.finalized_tables + (l.filter (fun t => !t.is_active)).length,
       acc.total_tables⟩ := by
  induction l generalizing acc with
  | nil => simp
  | cons t rest ih =>
    rw [List.foldl_cons, ih]
    cases hA : t.is_active <;>
      simp [summaryStep, hA, add_assoc] <;> omega

/-- C8: `get_sales_summary` scans the live table map and reports the sum of
totals and of item counts over the finalized (inactive) tables only — active
tables contribute nothing to `total_sales`/`total_items` — together with the
counts of active tables, finalized tables, and all tables. -/
theorem claim_C8_sales_summary (c : SalesController) :
    c.get_sales_summary =
      ⟨(((c.tables.map Prod.snd).filter (fun t => !t.is_active)).map Table.get_total).sum,
       (((c.tables.map Prod.snd).filter (fun t => !t.is_active)).map Table.get_item_count).sum,
       ((c.tables.map Prod.snd).filter (fun t => t.is_active)).length,
       ((c.tables.map Prod.snd).filter (fun t => !t.is_active)).length,
       c.tables.length⟩ := by
  unfold SalesController.get_sales_summary
  rw [summaryFold]
  simp

/-- C2 (amended): on a daily-ledger document whose `items_sold` and
`hourly_breakdown` values are all positive and a snapshot whose item
quantities are positive with pairwise-distinct names (true of every snapshot
produced by finalizing a table, except that a zero-total order can leave a
zero-valued hourly bucket behind — see the counterexample), recording the
snapshot and then removing it at its index restores `total_sales`,
`total_orders` and `orders` exactly, restores `items_sold` and
`hourly_breakdown` as key-to-value mappings (Python dict equality), and
appends exactly one entry to the removal audit log. Without the positivity
proviso on `hourly_breakdown` a pre-existing bucket holding a value ≤ 0 is
deleted by the removal rather than restored, refuting the unconditional
"for every daily-ledger state" phrasing. -/
theorem claim_C2_roundtrip (d : DailyData) (audit : List AuditEntry)
    (s : OrderSnapshot) (now : Nat) (ds : String)
    (hq : ∀ it ∈ s.items, 0 < it.quantity)
    (hnd : (s.items.map ItemDict.name).Nodup)
    (hm : ∀ p ∈ d.items_sold, 0 < p.2)
    (hh : ∀ p ∈ d.hourly_breakdown, 0 < p.2) :
    ∃ d' audit',
      removeOrder (recordOrder d s) audit (d.orders.length : ℤ) now ds =
        .ok (d', audit') ∧
      d'.total_sales = d.total_sales ∧
      d'.total_orders = d.total_orders ∧
      d'.orders = d.orders ∧
      (∀ k, dictGet d'.items_sold k = dictGet d.items_sold k) ∧
      (∀ h, dictGet d'.hourly_breakdown h = dictGet d.hourly_breakdown h) ∧
      audit' = audit ++ [⟨now, ds, s, "Manual removal via admin interface"⟩] := by
  have hord : (recordOrder d s).orders = d.orders ++ [s] := rfl
  have h1 : ¬ (((recordOrder d s).orders.length : ℤ) ≤ (d.orders.length : ℤ)) := by
    rw [hord]
    simp
  have h2 : pyIndexOf (recordOrder d s).orders.length (d.orders.length : ℤ) =
      some d.orders.length := by
    rw [hord]
    unfold pyIndexOf
    rw [if_pos (by positivity), if_pos (by simp), Int.toNat_natCast]
  have h3 : (recordOrder d s).orders.get? d.orders.length = some s := by
    rw [hord]
    exact get?_append_len _ _
  unfold removeOrder
  rw [if_neg h1, h2]
  dsimp only
  rw [h3]
  dsimp only
  refine ⟨_, _, rfl, ?_, ?_, ?_, ?_, ?_, rfl⟩
  · show (recordOrder d s).total_sales - s.total_amount = d.total_sales
    show d.total_sales + s.total_amount - s.total_amount = d.total_sales
    ring
  · show (recordOrder d s).total_orders - 1 = d.total_orders
    show d.total_orders + 1 - 1 = d.total_orders
    ring
  · show removeAt (recordOrder d s).orders d.orders.length = d.orders
    rw [hord]
    exact removeAt_append_len _ _
  · intro k
    show dictGet (s.items.foldl remStep (recordOrder d s).items_sold) k =
      dictGet d.items_sold k
    exact items_roundtrip s.items d.items_sold hq hnd hm k
  · intro h
    show dictGet (hbRem (recordOrder d s).hourly_breakdown
        (hourKey s.finalized_at) s.total_amount) h =
      dictGet d.hourly_breakdown h
    exact hourly_roundtrip d.hourly_breakdown (hourKey s.finalized_at)
      s.total_amount hh h

/-- C2 witness: on an empty ledger, record a Tea order and remove it at index
0: everything is restored and one audit entry is appended. -/
theorem claim_C2_witness :
    ∃ d' audit',
      removeOrder (recordOrder ⟨"2024-01-01", 0, 0, [], [], []⟩
          ⟨"Table 2", 2, 610, [⟨"Tea", 5, 1, 5⟩], 5, 1⟩) [] 0 7 "2024-01-01" =
        .ok (d', audit') ∧
      d'.total_sales = (0 : ℚ) ∧
      d'.total_orders = (0 : ℤ) ∧
      d'.orders = [] ∧
      (∀ k, dictGet d'.items_sold k = dictGet ([] : List (String × ℤ)) k) ∧
      (∀ h, dictGet d'.hourly_breakdown h = dictGet ([] : List (Nat × ℚ)) h) ∧
      audit' = [⟨7, "2024-01-01", ⟨"Table 2", 2, 610, [⟨"Tea", 5, 1, 5⟩], 5, 1⟩,
        "Manual removal via admin interface"⟩] := by
  have h := claim_C2_roundtrip ⟨"2024-01-01", 0, 0, [], [], []⟩ []
    ⟨"Table 2", 2, 610, [⟨"Tea", 5, 1, 5⟩], 5, 1⟩ 7 "2024-01-01"
    (by decide) (by decide) (by decide) (by decide)
  simpa using h

/-- C2 counterexample: a reachable ledger state (a zero-total "Water" order
was recorded at hour 10, leaving `hourly_breakdown = [(10, 0)]`) on which
record-then-remove does NOT restore `hourly_breakdown`: the removal deletes
the hour-10 bucket (value dropped to 0 ≤ 0) instead of restoring its prior
value 0, refuting the claim for every daily-ledger state. -/
theorem claim_C2_counterexample :
    removeOrder
        (recordOrder
          ⟨"2024-01-01", 0, 1, [("Water", 1)], [(10, 0)],
            [⟨"Table 1", 1, 600, [⟨"Water", 0, 1, 0⟩], 0, 1⟩]⟩
          ⟨"Table 2", 2, 610, [⟨"Tea", 5, 1, 5⟩], 5, 1⟩) [] 1 7 "2024-01-01" =
      .ok (⟨"2024-01-01", 0, 1, [("Water", 1)], [],
            [⟨"Table 1", 1, 600, [⟨"Water", 0, 1, 0⟩], 0, 1⟩]⟩,
        [⟨7, "2024-01-01", ⟨"Table 2", 2, 610, [⟨"Tea", 5, 1, 5⟩], 5, 1⟩,
          "Manual removal via admin interface"⟩]) ∧
    dictGet ([] : List (Nat × ℚ)) 10 ≠ dictGet [((10 : Nat), (0 : ℚ))] 10 := by
  constructor
  · norm_num [recordOrder, removeOrder, recStep, remStep, hbRec, hbRem,
      hourKey, pyIndexOf, dictGet, dictSet, dictDel, removeAt]
    decide
  · simp [dictGet]
